import Mathlib

/-!
Verification of the applied-machine-learning repository specification.

The repository consists of two notebooks: a Shape Reshaper tutorial whose
cells call the numerical library's row-major `reshape`, and a Linear-Algebra
Operation Catalog cheat sheet. The notebooks delegate all computation to
the underlying numerical library, so the operations themselves are modelled
here from the specification's contracts, over exact rational arithmetic
(and the reals where a square root is required).
-/

namespace AppliedML

/-- Modelled from the spec: the error taxonomy of §7 (ShapeMismatch for
reshape product mismatches, DimensionMismatch for incompatible operand
shapes, SingularMatrix for inverting a non-invertible matrix, DomainError
for an operation applied outside its valid domain). -/
inductive LAError where
  | ShapeMismatch
  | DimensionMismatch
  | SingularMatrix
  | DomainError
  deriving DecidableEq

/-- Splits a list into `n` consecutive chunks of `k` elements each
(row-major regrouping); when the list has exactly `n * k` elements every
chunk has length `k` and concatenating the chunks restores the list. -/
def chunkExact {α : Type} : Nat → Nat → List α → List (List α)
  | 0, _, _ => []
  | n + 1, k, l => l.take k :: chunkExact n k (l.drop k)

/-- Modelled from the spec: the Shape Reshaper contract of §4.1 over the
library routine the notebook calls (not part of the repository sources).
Given a sequence of `N` numeric values and a target
`(samples, timesteps, features)`, it produces the 3D tensor by row-major
regrouping when `samples * timesteps * features = N`, and fails with a
`ShapeMismatch` error otherwise; no other validation exists. -/
def reshape (data : List ℚ) (s t f : Nat) : Except LAError (List (List (List ℚ))) :=
  if s * t * f = data.length then
    Except.ok ((chunkExact s (t * f) data).map (chunkExact t f))
  else
    Except.error LAError.ShapeMismatch

/-- Modelled from the spec: §4.1's 2D form of the reshaper — a 2D sequence
of `R` rows, each of `C` elements, is reinterpreted as the 3D tensor
`(samples = 1, timesteps = R, features = C)` by flattening it row-major and
regrouping. -/
def reshape2D (m : List (List ℚ)) (c : Nat) : Except LAError (List (List (List ℚ))) :=
  reshape m.flatten 1 m.length c

theorem length_mem_chunkExact {α : Type} (n k : Nat) (l : List α)
    (h : l.length = n * k) : ∀ c ∈ chunkExact n k l, c.length = k := by
  induction n generalizing l with
  | zero => intro c hc; simp [chunkExact] at hc
  | succ n ih =>
    intro c hc
    rw [chunkExact] at hc
    rcases List.mem_cons.mp hc with hc | hc
    · subst hc
      rw [List.length_take, h, Nat.succ_mul]
      exact Nat.min_eq_left (Nat.le_add_left k (n * k))
    · exact ih (l.drop k) (by rw [List.length_drop, h, Nat.succ_mul, Nat.add_sub_cancel]) c hc

theorem flatten_chunkExact {α : Type} (n k : Nat) (l : List α)
    (h : l.length = n * k) : (chunkExact n k l).flatten = l := by
  induction n generalizing l with
  | zero => rw [Nat.zero_mul] at h; simp [chunkExact, List.length_eq_zero.mp h]
  | succ n ih =>
    rw [chunkExact, List.flatten_cons,
      ih (l.drop k) (by rw [List.length_drop, h, Nat.succ_mul, Nat.add_sub_cancel]),
      List.take_append_drop]

theorem flatten_flatten_map {α : Type} (g : List α → List (List α)) (L : List (List α))
    (h : ∀ c ∈ L, (g c).flatten = c) : ((L.map g).flatten).flatten = L.flatten := by
  induction L with
  | nil => rfl
  | cons a L ih =>
    rw [List.map_cons, List.flatten_cons, List.flatten_append, List.flatten_cons,
      h a (List.mem_cons_self a L), ih fun c hc => h c (List.mem_cons_of_mem a hc)]

/-- Claim C1: for every sequence of `N` rationals and every target triple
`(s, t, f)` with `s * t * f = N`, `reshape` succeeds and reading the
resulting 3D tensor back in row-major order (joining samples, then
timesteps) yields exactly the original sequence: no data loss and no
reordering. -/
theorem reshape_roundtrip (data : List ℚ) (s t f : Nat)
    (h : s * t * f = data.length) :
    ∃ T, reshape data s t f = Except.ok T ∧ T.flatten.flatten = data := by
  refine ⟨(chunkExact s (t * f) data).map (chunkExact t f), ?_, ?_⟩
  · rw [reshape, if_pos h]
  · have hlen : data.length = s * (t * f) := by rw [← h, Nat.mul_assoc]
    rw [flatten_flatten_map _ _ fun c hc =>
        flatten_chunkExact t f c (length_mem_chunkExact s (t * f) data hlen c hc),
      flatten_chunkExact s (t * f) data hlen]

/-- Concrete instance of C1: the notebook's ten-element sequence
`[0.1, …, 1.0]` reshaped to `(1, 10, 1)` round-trips. -/
theorem reshape_roundtrip_witness :
    1 * 10 * 1 = ([1/10, 2/10, 3/10, 4/10, 5/10, 6/10, 7/10, 8/10, 9/10, 1] : List ℚ).length ∧
    ∃ T, reshape [1/10, 2/10, 3/10, 4/10, 5/10, 6/10, 7/10, 8/10, 9/10, 1] 1 10 1 =
        Except.ok T ∧
      T.flatten.flatten = [1/10, 2/10, 3/10, 4/10, 5/10, 6/10, 7/10, 8/10, 9/10, 1] :=
  ⟨by decide, reshape_roundtrip _ 1 10 1 (by decide)⟩

/-- Claim C2: `reshape` fails with `ShapeMismatch` exactly when the product
of the target dimensions differs from the element count, and a
`ShapeMismatch` is the only possible failure. -/
theorem reshape_error_iff (data : List ℚ) (s t f : Nat) :
    (reshape data s t f = Except.error LAError.ShapeMismatch ↔
      s * t * f ≠ data.length) ∧
    ∀ e, reshape data s t f = Except.error e → e = LAError.ShapeMismatch := by
  rw [reshape]
  split
  · exact ⟨by simp_all, by simp⟩
  · exact ⟨by simp_all, by simp_all⟩

/-- Concrete instance of C2: a one-element sequence cannot be reshaped to
`(2, 2, 2)` and the failure is a `ShapeMismatch`. -/
theorem reshape_error_iff_witness :
    2 * 2 * 2 ≠ ([5] : List ℚ).length ∧
    reshape [5] 2 2 2 = Except.error LAError.ShapeMismatch :=
  ⟨by decide, (reshape_error_iff [5] 2 2 2).1.mpr (by decide)⟩

theorem length_flatten_rect (c : Nat) (m : List (List ℚ))
    (h : ∀ row ∈ m, row.length = c) : m.flatten.length = m.length * c := by
  induction m with
  | nil => simp
  | cons row rest ih =>
    rw [List.flatten_cons, List.length_append, List.length_cons, Nat.succ_mul,
      ih fun r hr => h r (List.mem_cons_of_mem row hr),
      h row (List.mem_cons_self row rest), Nat.add_comm]

theorem chunkExact_rows (c : Nat) (m : List (List ℚ))
    (h : ∀ row ∈ m, row.length = c) : chunkExact m.length c m.flatten = m := by
  induction m with
  | nil => rfl
  | cons row rest ih =>
    have hrow : row.length = c := h row (List.mem_cons_self row rest)
    rw [List.length_cons, List.flatten_cons, chunkExact,
      List.take_append_of_le_length (le_of_eq hrow.symm),
      List.take_of_length_le (le_of_eq hrow),
      List.drop_append_of_le_length (le_of_eq hrow.symm),
      List.drop_of_length_le (le_of_eq hrow),
      List.nil_append, ih fun r hr => h r (List.mem_cons_of_mem row hr)]

/-- Claim C5: a rectangular 2D sequence of `R` rows and `C` columns is
reinterpreted as the 3D tensor `(1, R, C)`: the result is the single-sample
tensor `[m]`, so the sample count is `1`, the timesteps are the `R` rows in
order, and each timestep carries the row's `C` features unchanged. -/
theorem reshape2D_single_sample (m : List (List ℚ)) (c : Nat)
    (h : ∀ row ∈ m, row.length = c) :
    reshape2D m c = Except.ok [m] := by
  have hflat : m.flatten.length = m.length * c := length_flatten_rect c m h
  have h1 : 1 * m.length * c = m.flatten.length := by
    rw [Nat.one_mul, hflat]
  rw [reshape2D, reshape, if_pos h1]
  simp only [chunkExact, List.map_cons, List.map_nil]
  rw [List.take_of_length_le (le_of_eq hflat), chunkExact_rows c m h]

/-- Concrete instance of C5: the notebook's 10×2 matrix of parallel series
reshapes to the `(1, 10, 2)` tensor wrapping the matrix itself. -/
theorem reshape2D_single_sample_witness :
    (∀ row ∈ ([[1/10, 1], [2/10, 9/10], [3/10, 8/10], [4/10, 7/10], [5/10, 6/10],
        [6/10, 5/10], [7/10, 4/10], [8/10, 3/10], [9/10, 2/10], [1, 1/10]] : List (List ℚ)),
      row.length = 2) ∧
    reshape2D [[1/10, 1], [2/10, 9/10], [3/10, 8/10], [4/10, 7/10], [5/10, 6/10],
        [6/10, 5/10], [7/10, 4/10], [8/10, 3/10], [9/10, 2/10], [1, 1/10]] 2 =
      Except.ok [[[1/10, 1], [2/10, 9/10], [3/10, 8/10], [4/10, 7/10], [5/10, 6/10],
        [6/10, 5/10], [7/10, 4/10], [8/10, 3/10], [9/10, 2/10], [1, 1/10]]] :=
  ⟨by decide, reshape2D_single_sample _ 2 (by decide)⟩

/-- Modelled from the spec: the arithmetic mean of a numeric vector
(the Linear-Algebra Operation Catalog notebook is not among the repository
sources; its statistics are modelled from §4.2). -/
def mean {α : Type} [Field α] (v : List α) : α := v.sum / (v.length : α)

/-- Modelled from the spec: sample variance, i.e. the sum of squared
deviations from the mean normalized by `N − 1` (§4.2: "variance (sample,
i.e., normalized by N−1)"). -/
def var {α : Type} [Field α] (v : List α) : α :=
  ((v.map fun x => (x - mean v) ^ 2).sum) / ((v.length : α) - 1)

/-- Modelled from the spec: sample standard deviation, the square root of
the sample variance (§4.2: "standard deviation (sample)"). -/
noncomputable def std (v : List ℝ) : ℝ := Real.sqrt (var v)

/-- Claim C3: the variance operation is sample-normalized — for a vector of
more than one element it is the sum of squared deviations from the mean
divided by `n − 1` — and in particular `var [1, 2, 3, 4] = 5/3`. -/
theorem var_sample_normalized :
    (∀ v : List ℚ, 1 < v.length →
      var v = ((v.map fun x => (x - mean v) ^ 2).sum) / ((v.length : ℚ) - 1)) ∧
    var ([1, 2, 3, 4] : List ℚ) = 5 / 3 := by
  refine ⟨fun v _ => rfl, ?_⟩
  norm_num [var, mean]

/-- Instance of C3 at the notebook's vector `[1, 2, 3, 4]`. -/
theorem var_sample_normalized_witness :
    1 < ([1, 2, 3, 4] : List ℚ).length ∧
    var ([1, 2, 3, 4] : List ℚ) =
      ((([1, 2, 3, 4] : List ℚ).map fun x => (x - mean [1, 2, 3, 4]) ^ 2).sum) /
        ((([1, 2, 3, 4] : List ℚ).length : ℚ) - 1) :=
  ⟨by decide, var_sample_normalized.1 [1, 2, 3, 4] (by decide)⟩

/-- Modelled from the spec: vector·vector dot product, a scalar; requires
the (inner) dimensions — the two lengths — to match, and fails with
`DimensionMismatch` otherwise (§4.2). -/
def dot (a b : List ℚ) : Except LAError ℚ :=
  if a.length = b.length then
    Except.ok (List.zipWith (fun x y => x * y) a b).sum
  else Except.error LAError.DimensionMismatch

/-- Column count of a rectangular list-of-rows matrix. -/
def ncols (A : List (List ℚ)) : Nat := (A.headD []).length

/-- Modelled from the spec: matrix·matrix dot product; requires the inner
dimensions (columns of the left operand, rows of the right) to match, and
fails with `DimensionMismatch` otherwise (§4.2). -/
def matmul (A B : List (List ℚ)) : Except LAError (List (List ℚ)) :=
  if ncols A = B.length then
    Except.ok (A.map fun row =>
      B.transpose.map fun col => (List.zipWith (fun x y => x * y) row col).sum)
  else Except.error LAError.DimensionMismatch

/-- Modelled from the spec: matrix·vector dot product, a vector; requires
the inner dimensions (columns of the matrix, length of the vector) to
match, and fails with `DimensionMismatch` otherwise (§4.2). -/
def matvec (A : List (List ℚ)) (v : List ℚ) : Except LAError (List ℚ) :=
  if ncols A = v.length then
    Except.ok (A.map fun row => (List.zipWith (fun x y => x * y) row v).sum)
  else Except.error LAError.DimensionMismatch

/-- Claim C4: the dot-product family maps vector·vector to a scalar,
matrix·matrix to a matrix and matrix·vector to a vector (by the types of
`dot`, `matmul` and `matvec`); each is defined exactly when the inner
dimensions match and fails with `DimensionMismatch` otherwise; and
`dot [1, 2, 3] [4, 5, 6] = 32`. -/
theorem dot_shapes :
    (∀ a b : List ℚ,
      ((∃ r, dot a b = Except.ok r) ↔ a.length = b.length) ∧
      (a.length ≠ b.length → dot a b = Except.error LAError.DimensionMismatch)) ∧
    (∀ A B : List (List ℚ),
      ((∃ C, matmul A B = Except.ok C) ↔ ncols A = B.length) ∧
      (ncols A ≠ B.length → matmul A B = Except.error LAError.DimensionMismatch)) ∧
    (∀ A v,
      ((∃ w, matvec A v = Except.ok w) ↔ ncols A = v.length) ∧
      (ncols A ≠ v.length → matvec A v = Except.error LAError.DimensionMismatch)) ∧
    dot [1, 2, 3] [4, 5, 6] = Except.ok 32 := by
  refine ⟨fun a b => ?_, fun A B => ?_, fun A v => ?_, ?_⟩
  · rw [dot]; split <;> simp_all
  · rw [matmul]; split <;> simp_all
  · rw [matvec]; split <;> simp_all
  · norm_num [dot]

/-- Instance of C4's failure clause at mismatched concrete lengths. -/
theorem dot_shapes_witness :
    ([1, 2] : List ℚ).length ≠ ([4, 5, 6] : List ℚ).length ∧
    dot [1, 2] [4, 5, 6] = Except.error LAError.DimensionMismatch :=
  ⟨by decide, (dot_shapes.1 [1, 2] [4, 5, 6]).2 (by decide)⟩

/-- Modelled from the spec: matrix transpose over a rectangular array of
fixed dimensions (§4.2). -/
def transpose {m n : Nat} (A : Matrix (Fin m) (Fin n) ℚ) : Matrix (Fin n) (Fin m) ℚ :=
  Matrix.of fun j i => A i j

/-- Claim C7: transpose is an involution — for every matrix `A` of any
dimensions, `transpose (transpose A) = A`. -/
theorem transpose_involution (m n : Nat) (A : Matrix (Fin m) (Fin n) ℚ) :
    transpose (transpose A) = A := rfl

/-- Modelled from the spec: matrix inverse, defined for square non-singular
matrices only; fails with `SingularMatrix` when the matrix is not
invertible (§4.2, §7). The inverse is computed exactly over ℚ via the
adjugate formula. -/
def inv {n : Nat} (A : Matrix (Fin n) (Fin n) ℚ) :
    Except LAError (Matrix (Fin n) (Fin n) ℚ) :=
  if A.det = 0 then Except.error LAError.SingularMatrix
  else Except.ok (A.det⁻¹ • A.adjugate)

theorem smul_adjugate_eq_nonsing_inv {n : Nat} (B : Matrix (Fin n) (Fin n) ℚ) :
    B.det⁻¹ • B.adjugate = B⁻¹ := by
  rw [Matrix.inv_def, Ring.inverse_eq_inv]

/-- Claim C8: matrix inversion is an involution on invertible matrices —
for every square matrix `A` with nonzero determinant, inverting succeeds
and inverting the result gives back exactly `A` (exact rational
arithmetic). -/
theorem inv_involution (n : Nat) (A : Matrix (Fin n) (Fin n) ℚ)
    (h : A.det ≠ 0) :
    ∃ B, inv A = Except.ok B ∧ inv B = Except.ok A := by
  have hdetB : (A⁻¹).det = A.det⁻¹ := by
    rw [Matrix.det_nonsing_inv, Ring.inverse_eq_inv]
  refine ⟨A⁻¹, ?_, ?_⟩
  · rw [inv, if_neg h, smul_adjugate_eq_nonsing_inv]
  · rw [inv, if_neg (by rw [hdetB]; exact inv_ne_zero h),
      smul_adjugate_eq_nonsing_inv,
      Matrix.nonsing_inv_nonsing_inv A (isUnit_iff_ne_zero.mpr h)]

/-- Instance of C8 at the 1×1 matrix `[[2]]`. -/
theorem inv_involution_witness :
    (!![(2 : ℚ)]).det ≠ 0 ∧
    ∃ B, inv !![(2 : ℚ)] = Except.ok B ∧ inv B = Except.ok !![(2 : ℚ)] := by
  have h : (!![(2 : ℚ)]).det ≠ 0 := by norm_num [Matrix.det_fin_one]
  exact ⟨h, inv_involution 1 !![(2 : ℚ)] h⟩

/-- Modelled from the spec: least-squares solution; §4.2 requires the
coefficient matrix to have at least as many rows as columns (a determined
or overdetermined system), and the operation fails otherwise (§7's
`DomainError`). The returned value is the normal-equations solution. -/
def lstsq {m n : Nat} (A : Matrix (Fin m) (Fin n) ℚ) (b : Fin m → ℚ) :
    Except LAError (Fin n → ℚ) :=
  if n ≤ m then
    Except.ok ((((transpose A * A).det⁻¹) • (transpose A * A).adjugate).mulVec
      ((transpose A).mulVec b))
  else Except.error LAError.DomainError

/-- Claim C6: the least-squares operation succeeds exactly when the
coefficient matrix has at least as many rows as columns; it fails for
every underdetermined system. -/
theorem lstsq_defined_iff (m n : Nat) (A : Matrix (Fin m) (Fin n) ℚ)
    (b : Fin m → ℚ) :
    (∃ x, lstsq A b = Except.ok x) ↔ n ≤ m := by
  rw [lstsq]; split <;> simp_all

/-- Claim C9: the sample standard deviation squares to the sample variance
and is non-negative, for every real vector of more than one element. -/
theorem std_sq_eq_var (v : List ℝ) (h : 1 < v.length) :
    std v ^ 2 = var v ∧ 0 ≤ std v := by
  have hv : 0 ≤ var v := by
    apply div_nonneg
    · apply List.sum_nonneg
      intro x hx
      obtain ⟨a, -, rfl⟩ := List.mem_map.mp hx
      exact sq_nonneg _
    · have h1 : (1 : ℝ) < (v.length : ℝ) := by exact_mod_cast h
      linarith
  exact ⟨Real.sq_sqrt hv, Real.sqrt_nonneg _⟩

/-- Instance of C9 at the vector `[1, 2]`. -/
theorem std_sq_eq_var_witness :
    1 < ([1, 2] : List ℝ).length ∧
    (std [1, 2] ^ 2 = var [1, 2] ∧ 0 ≤ std [1, 2]) :=
  ⟨by decide, std_sq_eq_var [1, 2] (by decide)⟩

/-- Modelled from the spec: the pairwise sample covariance of two vectors,
normalized by `N − 1` like the sample variance (§4.2: "covariance matrix
(pairwise)"). -/
def covPair (x y : List ℚ) : ℚ :=
  (List.zipWith (fun a b => (a - mean x) * (b - mean y)) x y).sum /
    ((x.length : ℚ) - 1)

/-- Modelled from the spec: the covariance matrix of two vectors — the 2×2
matrix of pairwise covariances. -/
def cov (x y : List ℚ) : Matrix (Fin 2) (Fin 2) ℚ :=
  !![covPair x x, covPair x y; covPair y x, covPair y y]

theorem covPair_self (x : List ℚ) : covPair x x = var x := by
  have hf : (fun a : ℚ => (a - mean x) * (a - mean x)) =
      fun a : ℚ => (a - mean x) ^ 2 := by
    funext a
    rw [pow_two]
  rw [covPair, var, List.zipWith_same, hf]

theorem covPair_comm (x y : List ℚ) (h : x.length = y.length) :
    covPair x y = covPair y x := by
  have hf : (fun (b : ℚ) (a : ℚ) => (a - mean x) * (b - mean y)) =
      fun (a : ℚ) (b : ℚ) => (a - mean y) * (b - mean x) := by
    funext b a
    rw [mul_comm]
  rw [covPair, covPair, h,
    List.zipWith_comm (fun a b => (a - mean x) * (b - mean y)), hf]

/-- Claim C10: the pairwise covariance of two equal-length vectors is a
symmetric 2×2 matrix whose diagonal entries are the sample variances of
the two vectors. -/
theorem cov_symm_diag (x y : List ℚ) (h : x.length = y.length) :
    transpose (cov x y) = cov x y ∧
    cov x y 0 0 = var x ∧ cov x y 1 1 = var y := by
  refine ⟨?_, ?_, ?_⟩
  · funext i j
    fin_cases i <;> fin_cases j <;>
      simp [transpose, cov, covPair_comm x y h]
  · simp [cov, covPair_self]
  · simp [cov, covPair_self]

/-- Instance of C10 at the vectors `[1, 2]` and `[3, 5]`. -/
theorem cov_symm_diag_witness :
    ([1, 2] : List ℚ).length = ([3, 5] : List ℚ).length ∧
    (transpose (cov [1, 2] [3, 5]) = cov [1, 2] [3, 5] ∧
      cov [1, 2] [3, 5] 0 0 = var [1, 2] ∧
      cov [1, 2] [3, 5] 1 1 = var [3, 5]) :=
  ⟨by decide, cov_symm_diag [1, 2] [3, 5] (by decide)⟩

end AppliedML
